import Mathlib

/-!
Verification of the metric classifier of DashboardAnalyzer.

The classifier is the `analyze_metric` function embedded in
`src/client/embed.js` (lines 931-991).  It receives a metric sample
(current value, optional comparison value, optional threshold bounds,
a favourable direction) and produces a textual report: a header, the
current value, an optional change line, and either a list of issues or
a "no problems" line.

The embedding below mirrors that function over exact rationals.  Report
lines and issues are kept structured (each constructor carries the
numbers that the source interpolates into the corresponding string), so
that every comparison, guard and ordering of the source is preserved.
-/

namespace DashboardAnalyzer

/-- The `positive_direction` field of a metric: which direction of change
counts as favourable.  The source reads `metric.get('positive_direction',
'up')` and only ever compares it with `'up'`. -/
inductive Direction where
  | up
  | down
deriving DecidableEq, Repr

/-- The four optional bounds of `metric.get('thresholds', {})` in
`analyze_metric` (`critical_min`, `critical_max`, `warning_min`,
`warning_max`), each read with `.get` and hence optional. -/
structure Thresholds where
  critical_min : Option ℚ
  critical_max : Option ℚ
  warning_min : Option ℚ
  warning_max : Option ℚ
deriving DecidableEq, Repr

/-- A metric sample as consumed by `analyze_metric`: `name`,
`value` (the current value), `comparison_value` (the previous value),
an optional `thresholds` record and the favourable direction. -/
structure MetricSample where
  name : String
  value : Option ℚ
  comparison_value : Option ℚ
  thresholds : Option Thresholds
  positive_direction : Direction
deriving DecidableEq, Repr

/-- An entry of the `issues` list built by `analyze_metric`.  Each
constructor corresponds to one `issues.append(...)` call and carries the
numbers interpolated into the message. -/
inductive Issue where
  | criticalBelow (value lo : ℚ)
  | criticalAbove (value hi : ℚ)
  | warningBelow (value lo : ℚ)
  | warningAbove (value hi : ℚ)
  | negativeChange (magnitude : ℚ)
deriving DecidableEq, Repr

/-- A line of `report_parts` in `analyze_metric`, structured.  Each
constructor corresponds to one `report_parts.append(...)` call.
`change` carries the indicator (`true` for the up glyph), the displayed
magnitude `abs(change_percent)` and the signed `change_abs`. -/
inductive Line where
  | header (name : String)
  | blank
  | currentValue (v : ℚ)
  | change (up : Bool) (percentMagnitude : ℚ) (changeAbs : ℚ)
  | issuesHeader
  | issueBullet (i : Issue)
  | noIssues
deriving DecidableEq, Repr

/-- `if critical_min is not None and current_value is not None and
current_value < critical_min: issues.append(КРИТИЧНО ... ниже ...)`. -/
def criticalMinIssues (t : Thresholds) (value : Option ℚ) : List Issue :=
  match t.critical_min, value with
  | some lo, some v => if v < lo then [Issue.criticalBelow v lo] else []
  | _, _ => []

/-- `if critical_max is not None and current_value is not None and
current_value > critical_max: issues.append(КРИТИЧНО ... выше ...)`. -/
def criticalMaxIssues (t : Thresholds) (value : Option ℚ) : List Issue :=
  match t.critical_max, value with
  | some hi, some v => if hi < v then [Issue.criticalAbove v hi] else []
  | _, _ => []

/-- `if warning_min is not None and current_value is not None and
current_value < warning_min: if critical_min is None or current_value >=
critical_min: issues.append(ВНИМАНИЕ ... ниже ...)`. -/
def warningMinIssues (t : Thresholds) (value : Option ℚ) : List Issue :=
  match t.warning_min, value with
  | some lo, some v =>
      if v < lo then
        match t.critical_min with
        | none => [Issue.warningBelow v lo]
        | some clo => if clo ≤ v then [Issue.warningBelow v lo] else []
      else []
  | _, _ => []

/-- `if warning_max is not None and current_value is not None and
current_value > warning_max: if critical_max is None or current_value <=
critical_max: issues.append(ВНИМАНИЕ ... выше ...)`. -/
def warningMaxIssues (t : Thresholds) (value : Option ℚ) : List Issue :=
  match t.warning_max, value with
  | some hi, some v =>
      if hi < v then
        match t.critical_max with
        | none => [Issue.warningAbove v hi]
        | some chi => if v ≤ chi then [Issue.warningAbove v hi] else []
      else []
  | _, _ => []

/-- The threshold block of `analyze_metric`: the four checks run in
source order, each appending at most one issue. -/
def thresholdIssues (t : Thresholds) (value : Option ℚ) : List Issue :=
  criticalMinIssues t value ++ criticalMaxIssues t value
    ++ warningMinIssues t value ++ warningMaxIssues t value

/-- The change block of `analyze_metric`, which runs only when
`previous_value is not None and previous_value != 0 and current_value is
not None`.  Returns `change_percent`, `change_abs`, and `is_positive =
(change_percent > 0) if positive_direction == 'up' else (change_percent
< 0)`. -/
def changeEval (m : MetricSample) : Option (ℚ × ℚ × Bool) :=
  match m.comparison_value with
  | none => none
  | some prev =>
      if prev = 0 then none
      else
        match m.value with
        | none => none
        | some cur =>
            let change_percent := (cur - prev) / |prev| * 100
            let change_abs := cur - prev
            let is_positive :=
              match m.positive_direction with
              | Direction.up => decide (0 < change_percent)
              | Direction.down => decide (change_percent < 0)
            some (change_percent, change_abs, is_positive)

/-- `if not is_positive and abs(change_percent) >= 10:
issues.append(Негативное изменение ...)`. -/
def changeIssues (m : MetricSample) : List Issue :=
  match changeEval m with
  | none => []
  | some (cp, _, pos) =>
      if pos = false ∧ 10 ≤ |cp| then [Issue.negativeChange |cp|] else []

/-- The full `issues` list of `analyze_metric`: threshold issues (skipped
when no thresholds record is present, matching `if thresholds:`),
followed by the change issue. -/
def issuesOf (m : MetricSample) : List Issue :=
  (match m.thresholds with
   | none => []
   | some t => thresholdIssues t m.value) ++ changeIssues m

/-- `if current_value is not None: report_parts.append(Текущее значение ...)`. -/
def currentValueLine (m : MetricSample) : List Line :=
  match m.value with
  | some v => [Line.currentValue v]
  | none => []

/-- The change line `Изменение: {indicator} {abs(change_percent)}
({change_abs})`, emitted exactly when the change block runs. -/
def changeLineOf (m : MetricSample) : List Line :=
  match changeEval m with
  | none => []
  | some (cp, ca, pos) => [Line.change pos |cp| ca]

/-- The tail of the report: `Выявленные проблемы:` followed by one bullet
per issue when `issues` is non-empty, otherwise the single line `Проблем
не выявлено. Метрика в пределах нормы.`. -/
def issuesBlock (issues : List Issue) : List Line :=
  if issues = [] then [Line.noIssues]
  else Line.issuesHeader :: issues.map Line.issueBullet

/-- The whole of `analyze_metric` (src/client/embed.js lines 931-991):
the report lines, in the order the source appends them. -/
def analyze_metric (m : MetricSample) : List Line :=
  [Line.header m.name, Line.blank]
    ++ currentValueLine m
    ++ changeLineOf m
    ++ [Line.blank]
    ++ issuesBlock (issuesOf m)

/-- `true` exactly on change lines. -/
def Line.isChange : Line → Bool
  | Line.change _ _ _ => true
  | _ => false

/-- `true` exactly on issue bullets. -/
def Line.isBullet : Line → Bool
  | Line.issueBullet _ => true
  | _ => false

-- Sanity examples on concrete inputs.
example :
    issuesOf ⟨"m", some 80, none, some ⟨none, some 75, none, some 70⟩, Direction.up⟩
      = [Issue.criticalAbove 80 75] := by decide

example :
    issuesOf ⟨"m", some 50, none, some ⟨none, none, some 60, none⟩, Direction.up⟩
      = [Issue.warningBelow 50 60] := by decide

example :
    analyze_metric ⟨"e", some 42, none, none, Direction.up⟩
      = [Line.header "e", Line.blank, Line.currentValue 42, Line.blank,
         Line.noIssues] := by decide

example :
    changeEval ⟨"a", some (91/2), some (443/10), none, Direction.down⟩
      = some (1200/443, 6/5, false) := by
  simp only [changeEval]
  norm_num
  rw [abs_of_pos (by norm_num : (0:ℚ) < 443/10)]
  norm_num

example :
    changeEval ⟨"d", some 100, some 150, none, Direction.up⟩
      = some (-100/3, -50, false) := by
  simp only [changeEval]
  norm_num

/-! ### Helper lemmas -/

lemma criticalMinIssues_shape (t : Thresholds) (ov : Option ℚ) :
    ∀ i ∈ criticalMinIssues t ov, ∃ v lo, i = Issue.criticalBelow v lo := by
  intro i hi
  unfold criticalMinIssues at hi
  split at hi
  · split_ifs at hi <;> simp at hi
    exact ⟨_, _, hi⟩
  · simp at hi

lemma criticalMaxIssues_shape (t : Thresholds) (ov : Option ℚ) :
    ∀ i ∈ criticalMaxIssues t ov, ∃ v hi, i = Issue.criticalAbove v hi := by
  intro i hi
  unfold criticalMaxIssues at hi
  split at hi
  · split_ifs at hi <;> simp at hi
    exact ⟨_, _, hi⟩
  · simp at hi

lemma warningMinIssues_shape (t : Thresholds) (ov : Option ℚ) :
    ∀ i ∈ warningMinIssues t ov, ∃ v lo, i = Issue.warningBelow v lo := by
  intro i hi
  unfold warningMinIssues at hi
  split at hi
  · split_ifs at hi
    · split at hi
      · simp at hi
        exact ⟨_, _, hi⟩
      · split_ifs at hi <;> simp at hi
        exact ⟨_, _, hi⟩
    · simp at hi
  · simp at hi

lemma warningMaxIssues_shape (t : Thresholds) (ov : Option ℚ) :
    ∀ i ∈ warningMaxIssues t ov, ∃ v hi, i = Issue.warningAbove v hi := by
  intro i hi
  unfold warningMaxIssues at hi
  split at hi
  · split_ifs at hi
    · split at hi
      · simp at hi
        exact ⟨_, _, hi⟩
      · split_ifs at hi <;> simp at hi
        exact ⟨_, _, hi⟩
    · simp at hi
  · simp at hi

lemma changeIssues_shape (m : MetricSample) :
    ∀ i ∈ changeIssues m, ∃ x, i = Issue.negativeChange x := by
  intro i hi
  unfold changeIssues at hi
  split at hi
  · simp at hi
  · split_ifs at hi <;> simp at hi
    exact ⟨_, hi⟩

lemma negativeChange_not_mem_thresholdIssues (t : Thresholds) (ov : Option ℚ)
    (x : ℚ) : Issue.negativeChange x ∉ thresholdIssues t ov := by
  intro h
  unfold thresholdIssues at h
  rcases List.mem_append.mp h with h1 | h4
  · rcases List.mem_append.mp h1 with h2 | h3
    · rcases List.mem_append.mp h2 with h5 | h6
      · obtain ⟨v, lo, hE⟩ := criticalMinIssues_shape t ov _ h5
        simp at hE
      · obtain ⟨v, hi, hE⟩ := criticalMaxIssues_shape t ov _ h6
        simp at hE
    · obtain ⟨v, lo, hE⟩ := warningMinIssues_shape t ov _ h3
      simp at hE
  · obtain ⟨v, hi, hE⟩ := warningMaxIssues_shape t ov _ h4
    simp at hE

lemma mem_issuesOf_iff (m : MetricSample) (t : Thresholds)
    (ht : m.thresholds = some t) (i : Issue) :
    i ∈ issuesOf m ↔
      i ∈ criticalMinIssues t m.value ∨ i ∈ criticalMaxIssues t m.value
      ∨ i ∈ warningMinIssues t m.value ∨ i ∈ warningMaxIssues t m.value
      ∨ i ∈ changeIssues m := by
  simp [issuesOf, ht, thresholdIssues, List.mem_append, or_assoc]

lemma mem_issuesBlock (issues : List Issue) (i : Issue) (h : i ∈ issues) :
    Line.issueBullet i ∈ issuesBlock issues := by
  unfold issuesBlock
  have hne : issues ≠ [] := by rintro rfl; simp at h
  rw [if_neg hne]
  exact List.mem_cons_of_mem _ (List.mem_map_of_mem _ h)

lemma bullet_mem_analyze (m : MetricSample) (i : Issue) (h : i ∈ issuesOf m) :
    Line.issueBullet i ∈ analyze_metric m := by
  have hb := mem_issuesBlock (issuesOf m) i h
  simp [analyze_metric, List.mem_append, hb]

lemma changeEval_eq (m : MetricSample) (cur prev : ℚ)
    (hv : m.value = some cur) (hp : m.comparison_value = some prev)
    (hnz : prev ≠ 0) :
    changeEval m = some ((cur - prev) / |prev| * 100, cur - prev,
      match m.positive_direction with
      | Direction.up => decide (0 < (cur - prev) / |prev| * 100)
      | Direction.down => decide ((cur - prev) / |prev| * 100 < 0)) := by
  simp only [changeEval, hp, hv]
  rw [if_neg hnz]

lemma changeEval_inv (m : MetricSample) (cp ca : ℚ) (fav : Bool)
    (h : changeEval m = some (cp, ca, fav)) :
    ∃ cur prev, m.value = some cur ∧ m.comparison_value = some prev
      ∧ prev ≠ 0 ∧ cp = (cur - prev) / |prev| * 100 ∧ ca = cur - prev
      ∧ fav = (match m.positive_direction with
               | Direction.up => decide (0 < cp)
               | Direction.down => decide (cp < 0)) := by
  rcases hp : m.comparison_value with _ | prev
  · simp [changeEval, hp] at h
  · rcases hv : m.value with _ | cur
    · simp [changeEval, hp, hv] at h
    · by_cases hz : prev = 0
      · simp [changeEval, hp, hz] at h
      · simp only [changeEval, hp, hv, if_neg hz, Option.some.injEq,
          Prod.mk.injEq] at h
        obtain ⟨hcp, hca, hfav⟩ := h
        refine ⟨cur, prev, rfl, rfl, hz, hcp.symm, hca.symm, ?_⟩
        subst hcp
        exact hfav.symm

lemma criticalBelow_mem_iff (t : Thresholds) (v lo : ℚ)
    (hc : t.critical_min = some lo) :
    Issue.criticalBelow v lo ∈ criticalMinIssues t (some v) ↔ v < lo := by
  unfold criticalMinIssues
  rw [hc]
  by_cases h1 : v < lo <;> simp [h1]

lemma criticalAbove_mem_iff (t : Thresholds) (v hi : ℚ)
    (hc : t.critical_max = some hi) :
    Issue.criticalAbove v hi ∈ criticalMaxIssues t (some v) ↔ hi < v := by
  unfold criticalMaxIssues
  rw [hc]
  by_cases h1 : hi < v <;> simp [h1]

lemma warningBelow_mem_iff (t : Thresholds) (v wlo : ℚ)
    (hw : t.warning_min = some wlo) :
    Issue.warningBelow v wlo ∈ warningMinIssues t (some v) ↔
      v < wlo ∧ (t.critical_min = none
        ∨ ∃ clo, t.critical_min = some clo ∧ clo ≤ v) := by
  unfold warningMinIssues
  rw [hw]
  rcases hc : t.critical_min with _ | clo
  · by_cases h1 : v < wlo <;> simp [h1, hc]
  · by_cases h1 : v < wlo <;> by_cases h2 : clo ≤ v <;> simp [h1, h2, hc]

lemma warningAbove_mem_iff (t : Thresholds) (v whi : ℚ)
    (hw : t.warning_max = some whi) :
    Issue.warningAbove v whi ∈ warningMaxIssues t (some v) ↔
      whi < v ∧ (t.critical_max = none
        ∨ ∃ chi, t.critical_max = some chi ∧ v ≤ chi) := by
  unfold warningMaxIssues
  rw [hw]
  rcases hc : t.critical_max with _ | chi
  · by_cases h1 : whi < v <;> simp [h1, hc]
  · by_cases h1 : whi < v <;> by_cases h2 : v ≤ chi <;> simp [h1, h2, hc]

lemma warningBelow_not_mem_criticalMinIssues (t : Thresholds) (ov : Option ℚ)
    (a b : ℚ) : Issue.warningBelow a b ∉ criticalMinIssues t ov := by
  intro h
  obtain ⟨v, lo, hE⟩ := criticalMinIssues_shape t ov _ h
  simp at hE

lemma warningBelow_not_mem_criticalMaxIssues (t : Thresholds) (ov : Option ℚ)
    (a b : ℚ) : Issue.warningBelow a b ∉ criticalMaxIssues t ov := by
  intro h
  obtain ⟨v, hi, hE⟩ := criticalMaxIssues_shape t ov _ h
  simp at hE

lemma warningBelow_not_mem_warningMaxIssues (t : Thresholds) (ov : Option ℚ)
    (a b : ℚ) : Issue.warningBelow a b ∉ warningMaxIssues t ov := by
  intro h
  obtain ⟨v, hi, hE⟩ := warningMaxIssues_shape t ov _ h
  simp at hE

lemma warningBelow_not_mem_changeIssues (m : MetricSample)
    (a b : ℚ) : Issue.warningBelow a b ∉ changeIssues m := by
  intro h
  obtain ⟨x, hE⟩ := changeIssues_shape m _ h
  simp at hE

lemma warningAbove_not_mem_criticalMinIssues (t : Thresholds) (ov : Option ℚ)
    (a b : ℚ) : Issue.warningAbove a b ∉ criticalMinIssues t ov := by
  intro h
  obtain ⟨v, lo, hE⟩ := criticalMinIssues_shape t ov _ h
  simp at hE

lemma warningAbove_not_mem_criticalMaxIssues (t : Thresholds) (ov : Option ℚ)
    (a b : ℚ) : Issue.warningAbove a b ∉ criticalMaxIssues t ov := by
  intro h
  obtain ⟨v, hi, hE⟩ := criticalMaxIssues_shape t ov _ h
  simp at hE

lemma warningAbove_not_mem_warningMinIssues (t : Thresholds) (ov : Option ℚ)
    (a b : ℚ) : Issue.warningAbove a b ∉ warningMinIssues t ov := by
  intro h
  obtain ⟨v, lo, hE⟩ := warningMinIssues_shape t ov _ h
  simp at hE

lemma warningAbove_not_mem_changeIssues (m : MetricSample)
    (a b : ℚ) : Issue.warningAbove a b ∉ changeIssues m := by
  intro h
  obtain ⟨x, hE⟩ := changeIssues_shape m _ h
  simp at hE

/-! ### Claim theorems -/

/-- C1: for a metric with a present current value, breaching a present
`critical_min` from below (strictly) puts the corresponding critical
issue in the report's issue list, and breaching a present `critical_max`
from above (strictly) puts the corresponding critical issue there. -/
theorem critical_bounds_flag_critical (m : MetricSample) (v : ℚ)
    (t : Thresholds) (hv : m.value = some v) (ht : m.thresholds = some t) :
    (∀ lo, t.critical_min = some lo → v < lo →
        Issue.criticalBelow v lo ∈ issuesOf m)
    ∧ (∀ hi, t.critical_max = some hi → hi < v →
        Issue.criticalAbove v hi ∈ issuesOf m) := by
  constructor
  · intro lo hc hlt
    rw [mem_issuesOf_iff m t ht, hv]
    exact Or.inl ((criticalBelow_mem_iff t v lo hc).mpr hlt)
  · intro hi hc hlt
    rw [mem_issuesOf_iff m t ht, hv]
    exact Or.inr (Or.inl ((criticalAbove_mem_iff t v hi hc).mpr hlt))

theorem critical_bounds_flag_critical_witness :
    Issue.criticalBelow 1 2 ∈ issuesOf ⟨"w1", some 1, none,
        some ⟨some 2, some 0, none, none⟩, Direction.up⟩
    ∧ Issue.criticalAbove 1 0 ∈ issuesOf ⟨"w1", some 1, none,
        some ⟨some 2, some 0, none, none⟩, Direction.up⟩ := by
  have h := critical_bounds_flag_critical
    ⟨"w1", some 1, none, some ⟨some 2, some 0, none, none⟩, Direction.up⟩
    1 ⟨some 2, some 0, none, none⟩ rfl rfl
  exact ⟨h.1 2 rfl (by norm_num), h.2 0 rfl (by norm_num)⟩

/-- C2: with a present current value, a warning-minimum issue is in the
issue list iff the value is strictly below `warning_min` and either
`critical_min` is absent or the value is at least `critical_min`;
symmetrically for the maximum side.  A value breaching the critical
bound therefore never additionally fires the matching warning check. -/
theorem warning_guard_iff (m : MetricSample) (v : ℚ) (t : Thresholds)
    (hv : m.value = some v) (ht : m.thresholds = some t) :
    (∀ wlo, t.warning_min = some wlo →
        (Issue.warningBelow v wlo ∈ issuesOf m ↔
          v < wlo ∧ (t.critical_min = none
            ∨ ∃ clo, t.critical_min = some clo ∧ clo ≤ v)))
    ∧ (∀ whi, t.warning_max = some whi →
        (Issue.warningAbove v whi ∈ issuesOf m ↔
          whi < v ∧ (t.critical_max = none
            ∨ ∃ chi, t.critical_max = some chi ∧ v ≤ chi))) := by
  constructor
  · intro wlo hw
    rw [mem_issuesOf_iff m t ht, hv]
    simp only [warningBelow_not_mem_criticalMinIssues,
      warningBelow_not_mem_criticalMaxIssues,
      warningBelow_not_mem_warningMaxIssues,
      warningBelow_not_mem_changeIssues, or_false, false_or]
    exact warningBelow_mem_iff t v wlo hw
  · intro whi hw
    rw [mem_issuesOf_iff m t ht, hv]
    simp only [warningAbove_not_mem_criticalMinIssues,
      warningAbove_not_mem_criticalMaxIssues,
      warningAbove_not_mem_warningMinIssues,
      warningAbove_not_mem_changeIssues, or_false, false_or]
    exact warningAbove_mem_iff t v whi hw

theorem warning_guard_iff_witness :
    issuesOf ⟨"b", some 80, none, some ⟨none, some 75, none, some 70⟩,
        Direction.up⟩ = [Issue.criticalAbove 80 75]
    ∧ Issue.warningAbove 80 70 ∉ issuesOf ⟨"b", some 80, none,
        some ⟨none, some 75, none, some 70⟩, Direction.up⟩ := by
  refine ⟨by decide, fun hmem => ?_⟩
  have h := ((warning_guard_iff
      ⟨"b", some 80, none, some ⟨none, some 75, none, some 70⟩, Direction.up⟩
      80 ⟨none, some 75, none, some 70⟩ rfl rfl).2 70 rfl).mp hmem
  rcases h.2 with hc | ⟨chi, hchi, hle⟩
  · exact Option.noConfusion hc
  · rw [Option.some.injEq] at hchi
    subst hchi
    norm_num at hle

lemma change_not_mem_issuesBlock (issues : List Issue) (up : Bool)
    (pm ca : ℚ) : Line.change up pm ca ∉ issuesBlock issues := by
  intro h
  unfold issuesBlock at h
  split_ifs at h <;> simp at h

/-- C3: with current and previous values present and the previous value
non-zero, `changeEval` returns `changePercent = (cur - prev)/|prev|*100`;
the change is favourable iff `changePercent > 0` for direction `up` and
iff `changePercent < 0` for direction `down` (zero change is never
favourable), and a negative-change issue is in the issue list iff the
change is not favourable and `|changePercent| ≥ 10`. -/
theorem change_classification (m : MetricSample) (cur prev : ℚ)
    (hv : m.value = some cur) (hp : m.comparison_value = some prev)
    (hnz : prev ≠ 0) :
    ∃ cp fav, cp = (cur - prev) / |prev| * 100
      ∧ changeEval m = some (cp, cur - prev, fav)
      ∧ (fav = true ↔
          (if m.positive_direction = Direction.up then 0 < cp else cp < 0))
      ∧ (cp = 0 → fav = false)
      ∧ (Issue.negativeChange |cp| ∈ issuesOf m ↔
          fav = false ∧ 10 ≤ |cp|) := by
  refine ⟨(cur - prev) / |prev| * 100,
    (match m.positive_direction with
      | Direction.up => decide (0 < (cur - prev) / |prev| * 100)
      | Direction.down => decide ((cur - prev) / |prev| * 100 < 0)),
    rfl, changeEval_eq m cur prev hv hp hnz, ?_, ?_, ?_⟩
  · rcases hd : m.positive_direction <;> simp [hd]
  · intro h0
    rcases hd : m.positive_direction <;> simp [hd, h0]
  · have hce := changeEval_eq m cur prev hv hp hnz
    have hchg : changeIssues m =
        if (match m.positive_direction with
            | Direction.up => decide (0 < (cur - prev) / |prev| * 100)
            | Direction.down => decide ((cur - prev) / |prev| * 100 < 0))
              = false
            ∧ 10 ≤ |(cur - prev) / |prev| * 100| then
          [Issue.negativeChange |(cur - prev) / |prev| * 100|]
        else [] := by
      unfold changeIssues
      rw [hce]
    constructor
    · intro hmem
      unfold issuesOf at hmem
      rcases List.mem_append.mp hmem with h | h
      · rcases hth : m.thresholds with _ | t
        · simp [hth] at h
        · simp only [hth] at h
          exact absurd h (negativeChange_not_mem_thresholdIssues t m.value _)
      · rw [hchg] at h
        split_ifs at h with hcond
        · exact hcond
        · simp at h
    · intro hcond
      unfold issuesOf
      refine List.mem_append.mpr (Or.inr ?_)
      rw [hchg, if_pos hcond]
      simp

theorem change_classification_witness :
    Issue.negativeChange (100/3) ∈ issuesOf
      ⟨"d", some 100, some 150, none, Direction.up⟩ := by
  obtain ⟨cp, fav, hcp, hce, hfav, hzero, hiff⟩ :=
    change_classification ⟨"d", some 100, some 150, none, Direction.up⟩
      100 150 rfl rfl (by norm_num)
  have hcp3 : cp = -(100/3) := by
    rw [hcp, abs_of_pos (by norm_num : (0:ℚ) < 150)]
    norm_num
  have hfavf : fav = false := by
    rcases hb : fav
    · rfl
    · exfalso
      have hx := hfav.mp hb
      rw [if_pos rfl, hcp3] at hx
      norm_num at hx
  have h10 : (10:ℚ) ≤ |cp| := by
    rw [hcp3, abs_neg, abs_of_pos (by norm_num : (0:ℚ) < 100/3)]
    norm_num
  have hm := hiff.mpr ⟨hfavf, h10⟩
  rwa [hcp3, abs_neg, abs_of_pos (by norm_num : (0:ℚ) < 100/3)] at hm

/-- C4: when the previous value is exactly zero, the change evaluation is
skipped entirely (the guarded division never runs), so no change line and
no negative-change issue appear, regardless of the current value. -/
theorem zero_previous_skips_change (m : MetricSample)
    (h : m.comparison_value = some 0) :
    changeEval m = none
    ∧ (∀ up pm ca, Line.change up pm ca ∉ analyze_metric m)
    ∧ (∀ x, Issue.negativeChange x ∉ issuesOf m) := by
  have hce : changeEval m = none := by simp [changeEval, h]
  have hcl : changeLineOf m = [] := by simp [changeLineOf, hce]
  have hchg : changeIssues m = [] := by simp [changeIssues, hce]
  refine ⟨hce, ?_, ?_⟩
  · intro up pm ca hmem
    rcases hmv : m.value with _ | v <;>
      simp [analyze_metric, currentValueLine, hmv, hcl,
        change_not_mem_issuesBlock] at hmem
  · intro x hmem
    unfold issuesOf at hmem
    rw [hchg] at hmem
    rcases hth : m.thresholds with _ | t
    · simp [hth] at hmem
    · simp only [hth, List.append_nil] at hmem
      exact negativeChange_not_mem_thresholdIssues t m.value x hmem

theorem zero_previous_skips_change_witness :
    changeEval ⟨"z", some 5, some 0, some ⟨some 10, none, none, none⟩,
        Direction.up⟩ = none
    ∧ Line.change true 0 0 ∉ analyze_metric
        ⟨"z", some 5, some 0, some ⟨some 10, none, none, none⟩, Direction.up⟩
    ∧ Issue.negativeChange 0 ∉ issuesOf
        ⟨"z", some 5, some 0, some ⟨some 10, none, none, none⟩,
          Direction.up⟩ := by
  have h := zero_previous_skips_change
    ⟨"z", some 5, some 0, some ⟨some 10, none, none, none⟩, Direction.up⟩ rfl
  exact ⟨h.1, h.2.1 true 0 0, h.2.2 0⟩

/-- Scenario A of the spec: current value 45.5, previous value 44.3,
favourable direction `down`. -/
def scenarioA : MetricSample :=
  ⟨"a", some (91/2), some (443/10), none, Direction.down⟩

lemma scenarioA_changeEval :
    changeEval scenarioA = some (1200/443, 6/5, false) := by
  simp only [scenarioA, changeEval]
  norm_num
  rw [abs_of_pos (by norm_num : (0:ℚ) < 443/10)]
  norm_num

/-- C5 fails on the code: in Scenario A the change percent is positive
(1200/443 ≈ 2.71), yet the emitted change line carries the down glyph,
because the source picks the glyph from `is_positive` (favourability),
not from the sign of `change_percent`. -/
theorem change_glyph_counterexample :
    (0:ℚ) < 1200/443
    ∧ Line.change false (1200/443) (6/5) ∈ analyze_metric scenarioA
    ∧ Line.change true (1200/443) (6/5) ∉ analyze_metric scenarioA := by
  have habs : |(1200:ℚ)/443| = 1200/443 := abs_of_pos (by norm_num)
  have hcl : changeLineOf scenarioA = [Line.change false (1200/443) (6/5)] := by
    simp [changeLineOf, scenarioA_changeEval, habs]
  have hcv : currentValueLine scenarioA = [Line.currentValue (91/2)] := by
    simp [currentValueLine, scenarioA]
  refine ⟨by norm_num, ?_, ?_⟩
  · simp [analyze_metric, hcl]
  · intro hmem
    simp [analyze_metric, hcl, hcv, change_not_mem_issuesBlock] at hmem

/-- C5 (amended): whenever a change line is emitted, its up/down glyph is
chosen by favourability (`is_positive`), not by the sign of
changePercent: the glyph is up iff the change is favourable for the
declared direction.  In Scenario A the change is not favourable, so the
line carries the down glyph together with `|changePercent| = 1200/443`
(< 10, hence no negative-change issue) and the signed delta 6/5
(rendered +1.20). -/
theorem change_glyph_follows_favorability (m : MetricSample) (cp ca : ℚ)
    (fav : Bool) (h : changeEval m = some (cp, ca, fav)) :
    Line.change fav |cp| ca ∈ analyze_metric m
    ∧ (fav = true ↔
        (if m.positive_direction = Direction.up then 0 < cp else cp < 0)) := by
  constructor
  · have hcl : changeLineOf m = [Line.change fav |cp| ca] := by
      simp [changeLineOf, h]
    simp [analyze_metric, hcl]
  · obtain ⟨cur, prev, hv, hp, hnz, hcp, hca, hfav⟩ :=
      changeEval_inv m cp ca fav h
    rcases hd : m.positive_direction <;> simp [hfav, hd]

theorem change_glyph_follows_favorability_witness :
    Line.change false (1200/443) (6/5) ∈ analyze_metric scenarioA
    ∧ issuesOf scenarioA = [] := by
  have habs : |(1200:ℚ)/443| = 1200/443 := abs_of_pos (by norm_num)
  have h := (change_glyph_follows_favorability scenarioA (1200/443) (6/5)
      false scenarioA_changeEval).1
  have hth : scenarioA.thresholds = none := rfl
  refine ⟨by rwa [habs] at h, ?_⟩
  norm_num [issuesOf, hth, changeIssues, scenarioA_changeEval, habs]

/-- C6: the classifier has no error conditions — it is a total function,
its report is never empty, and when the issue list is empty after both
evaluations the report carries the "metric within normal bounds" line. -/
theorem classify_total_nonempty (m : MetricSample) :
    analyze_metric m ≠ []
    ∧ (issuesOf m = [] → Line.noIssues ∈ analyze_metric m) := by
  constructor
  · simp [analyze_metric]
  · intro h
    simp [analyze_metric, issuesBlock, h]

theorem classify_total_nonempty_witness :
    issuesOf ⟨"w6", none, none, none, Direction.up⟩ = []
    ∧ Line.noIssues ∈ analyze_metric ⟨"w6", none, none, none, Direction.up⟩ :=
  ⟨by decide, (classify_total_nonempty
      ⟨"w6", none, none, none, Direction.up⟩).2 (by decide)⟩

/-- Scenario E of the spec: current value 42, no thresholds, no previous
value. -/
def scenarioE : MetricSample := ⟨"e", some 42, none, none, Direction.up⟩

/-- C7 fails on the code as stated: in Scenario E the report is not just
the single "no problems" line — it also carries the header line and the
current-value line (plus two blank separators). -/
theorem scenarioE_counterexample :
    Line.currentValue 42 ∈ analyze_metric scenarioE
    ∧ analyze_metric scenarioE ≠ [Line.noIssues] := by decide

/-- C7 (amended): in Scenario E the report is exactly the header, a blank
line, the current-value line, a blank line, and the single "no problems /
within normal range" line; the issue list is empty, so the no-issues line
is the only status line and no issue entry or change line appears. -/
theorem scenarioE_report :
    analyze_metric scenarioE =
      [Line.header "e", Line.blank, Line.currentValue 42, Line.blank,
        Line.noIssues]
    ∧ issuesOf scenarioE = [] := by decide

/-- C8: the classifier is deterministic and idempotent — the report is a
function of the input sample alone, so repeated calls on the same input
give identical outputs. -/
theorem analyze_metric_deterministic (m₁ m₂ : MetricSample) (h : m₁ = m₂) :
    analyze_metric m₁ = analyze_metric m₂ ∧ issuesOf m₁ = issuesOf m₂ := by
  rw [h]
  exact ⟨rfl, rfl⟩

theorem analyze_metric_deterministic_witness :
    analyze_metric ⟨"w8", some 1, none, none, Direction.up⟩
      = analyze_metric ⟨"w8", some 1, none, none, Direction.up⟩ :=
  (analyze_metric_deterministic ⟨"w8", some 1, none, none, Direction.up⟩
    ⟨"w8", some 1, none, none, Direction.up⟩ rfl).1

/-- C9: when the current value is absent, every threshold check and the
change evaluation are skipped even if thresholds and a previous value are
present: the issue list is empty and the report is the header, two blank
lines and the "within normal bounds" line. -/
theorem absent_value_no_issues (m : MetricSample) (h : m.value = none) :
    issuesOf m = []
    ∧ analyze_metric m =
        [Line.header m.name, Line.blank, Line.blank, Line.noIssues] := by
  have hce : changeEval m = none := by
    rcases hp : m.comparison_value with _ | prev <;>
      simp [changeEval, hp, h]
  have hti : ∀ t : Thresholds, thresholdIssues t none = [] := by
    intro t
    unfold thresholdIssues criticalMinIssues criticalMaxIssues
      warningMinIssues warningMaxIssues
    rcases t.critical_min <;> rcases t.critical_max <;>
      rcases t.warning_min <;> rcases t.warning_max <;> rfl
  have hio : issuesOf m = [] := by
    unfold issuesOf
    rw [show changeIssues m = [] from by simp [changeIssues, hce]]
    rcases hth : m.thresholds with _ | t
    · simp
    · simp [h, hti t]
  refine ⟨hio, ?_⟩
  simp [analyze_metric, currentValueLine, h, changeLineOf, hce,
    issuesBlock, hio]

theorem absent_value_no_issues_witness :
    issuesOf ⟨"u", none, some 5, some ⟨some 0, some 1, some 0, some 1⟩,
        Direction.up⟩ = []
    ∧ analyze_metric ⟨"u", none, some 5,
        some ⟨some 0, some 1, some 0, some 1⟩, Direction.up⟩ =
      [Line.header "u", Line.blank, Line.blank, Line.noIssues] :=
  absent_value_no_issues
    ⟨"u", none, some 5, some ⟨some 0, some 1, some 0, some 1⟩, Direction.up⟩
    rfl

lemma currentValueLine_shape (m : MetricSample) :
    ∀ l ∈ currentValueLine m, ∃ v, l = Line.currentValue v := by
  intro l hl
  unfold currentValueLine at hl
  split at hl <;> simp at hl
  exact ⟨_, hl⟩

lemma changeLineOf_shape (m : MetricSample) :
    ∀ l ∈ changeLineOf m, ∃ u pm ca, l = Line.change u pm ca := by
  intro l hl
  unfold changeLineOf at hl
  split at hl <;> simp at hl
  exact ⟨_, _, _, hl⟩

lemma isChange_false_of_mem_issuesBlock (issues : List Issue) :
    ∀ l ∈ issuesBlock issues, l.isChange = false := by
  intro l hl
  unfold issuesBlock at hl
  split_ifs at hl
  · simp at hl
    subst hl
    rfl
  · rcases List.mem_cons.mp hl with h | h
    · subst h
      rfl
    · obtain ⟨i, _, rfl⟩ := List.mem_map.mp h
      rfl

/-- C10: the issue list always decomposes, in order, into the
below-critical-min, above-critical-max, below-warning-min,
above-warning-max and negative-change segments; and the report splits as
A ++ B where A (which holds any change line) contains no issue bullet
and B (which holds all issue bullets) contains no change line, so a
change line always precedes every issue bullet in the line sequence. -/
theorem report_order (m : MetricSample) :
    (∃ l1 l2 l3 l4 l5 : List Issue,
       issuesOf m = l1 ++ l2 ++ l3 ++ l4 ++ l5
       ∧ (∀ i ∈ l1, ∃ v lo, i = Issue.criticalBelow v lo)
       ∧ (∀ i ∈ l2, ∃ v hi, i = Issue.criticalAbove v hi)
       ∧ (∀ i ∈ l3, ∃ v lo, i = Issue.warningBelow v lo)
       ∧ (∀ i ∈ l4, ∃ v hi, i = Issue.warningAbove v hi)
       ∧ (∀ i ∈ l5, ∃ x, i = Issue.negativeChange x))
    ∧ (∃ A B : List Line,
       analyze_metric m = A ++ B
       ∧ (∀ l ∈ A, l.isBullet = false)
       ∧ (∀ l ∈ B, l.isChange = false)) := by
  constructor
  · rcases hth : m.thresholds with _ | t
    · exact ⟨[], [], [], [], changeIssues m,
        by simp [issuesOf, hth],
        by simp, by simp, by simp, by simp, changeIssues_shape m⟩
    · exact ⟨criticalMinIssues t m.value, criticalMaxIssues t m.value,
        warningMinIssues t m.value, warningMaxIssues t m.value,
        changeIssues m,
        by simp [issuesOf, hth, thresholdIssues, List.append_assoc],
        criticalMinIssues_shape t m.value, criticalMaxIssues_shape t m.value,
        warningMinIssues_shape t m.value, warningMaxIssues_shape t m.value,
        changeIssues_shape m⟩
  · refine ⟨[Line.header m.name, Line.blank] ++ currentValueLine m
        ++ changeLineOf m,
      [Line.blank] ++ issuesBlock (issuesOf m),
      by simp [analyze_metric, List.append_assoc], ?_, ?_⟩
    · intro l hl
      rcases List.mem_append.mp hl with h | h
      · rcases List.mem_append.mp h with h1 | h1
        · fin_cases h1 <;> rfl
        · obtain ⟨v, rfl⟩ := currentValueLine_shape m l h1
          rfl
      · obtain ⟨u, pm, ca, rfl⟩ := changeLineOf_shape m l h
        rfl
    · intro l hl
      rcases List.mem_append.mp hl with h | h
      · fin_cases h
        rfl
      · exact isChange_false_of_mem_issuesBlock (issuesOf m) l h

end DashboardAnalyzer
